import Mathlib

/-!
Shallow embedding of the charge-curve estimation engine of smartcharge.dev
(`DBInterface.getChargeCurve`, `DBInterface.setChargeCurve`,
`DBInterface.chargeCalibration` in the server data handler), together with
the relational state they operate on (`charge` and `charge_curve` tables).

Durations, averages and medians are modelled as rationals (`ℚ`), matching
SQL numeric semantics of `AVG` and `percentile_cont`.
-/

namespace SmartCharge

/-- One row of the `charge` table: a charging session.  `estimate` is the
`estimate` column (estimated minutes) used by the fallback query. -/
structure Charge where
  charge_id : Nat
  vehicle_uuid : Nat
  location_uuid : Nat
  target_level : Int
  end_level : Int
  estimate : ℚ
deriving DecidableEq

/-- One row of the `charge_curve` table: a per-session, per-level duration
sample.  The three trailing fields are nullable columns (`none` = SQL NULL,
which is also the column default used for omitted insert fields). -/
structure ChargeCurveRow where
  vehicle_uuid : Nat
  charge_id : Nat
  level : Int
  duration : ℚ
  outside_deci_temperature : Option ℚ
  energy_used : Option ℚ
  energy_added : Option ℚ
deriving DecidableEq

/-- The database state visible to the curve engine. -/
structure DB where
  charges : List Charge
  charge_curve : List ChargeCurveRow
deriving DecidableEq

/-- The SQL join `charge a JOIN charge_curve b ON (a.charge_id = b.charge_id)
WHERE a.vehicle_uuid = v AND a.location_uuid = l` used by `getChargeCurve`,
its fallback average and `chargeCalibration`. -/
def chargeJoin (db : DB) (v l : Nat) : List (Charge × ChargeCurveRow) :=
  (db.charges.filter (fun a => a.vehicle_uuid == v && a.location_uuid == l)).flatMap
    (fun a => (db.charge_curve.filter (fun b => b.charge_id == a.charge_id)).map
      (fun b => (a, b)))

/-- The sample rows of the join (the `charge_curve` side). -/
def rowsAt (db : DB) (v l : Nat) : List ChargeCurveRow :=
  (chargeJoin db v l).map Prod.snd

/-- Durations of all joined samples recorded at level `lv` (one `GROUP BY
level` group). -/
def durationsAt (db : DB) (v l : Nat) (lv : Int) : List ℚ :=
  ((rowsAt db v l).filter (fun r => r.level == lv)).map (fun r => r.duration)

/-- Insertion step for sorting rationals ascending (the `ORDER BY duration`
inside the aggregate). -/
def insertQ (x : ℚ) : List ℚ → List ℚ
  | [] => [x]
  | y :: ys => if x ≤ y then x :: y :: ys else y :: insertQ x ys

/-- Ascending insertion sort on rationals. -/
def sortQ (xs : List ℚ) : List ℚ := xs.foldr insertQ []

/-- PostgreSQL `percentile_cont(0.5) WITHIN GROUP (ORDER BY duration)`: the
median with continuous interpolation (mean of the two middle elements for an
even count). -/
def percentileCont05 (xs : List ℚ) : ℚ :=
  if (sortQ xs).length % 2 == 1 then
    (sortQ xs).getD (((sortQ xs).length - 1) / 2) 0
  else
    ((sortQ xs).getD ((sortQ xs).length / 2 - 1) 0
      + (sortQ xs).getD ((sortQ xs).length / 2) 0) / 2

/-- Insertion step for the ascending, duplicate-free list of levels produced
by `GROUP BY level ORDER BY level`. -/
def insertLevel (x : Int) : List Int → List Int
  | [] => [x]
  | y :: ys => if x < y then x :: y :: ys else if x = y then y :: ys else y :: insertLevel x ys

/-- Ascending, duplicate-free sort of the measured levels. -/
def sortedLevels (xs : List Int) : List Int := xs.foldr insertLevel []

/-- The `dbCurve` result set of `getChargeCurve`: per measured level, the
median duration, ordered ascending by level. -/
def dbCurveQuery (db : DB) (v l : Nat) : List (Int × ℚ) :=
  (sortedLevels ((rowsAt db v l).map (fun r => r.level))).map
    (fun lv => (lv, percentileCont05 (durationsAt db v l lv)))

/-- SQL `SELECT AVG(duration)` over the joined samples (first fallback);
`none` is SQL NULL (empty row set). -/
def avgDuration (db : DB) (v l : Nat) : Option ℚ :=
  if (rowsAt db v l).length = 0 then none
  else some (((rowsAt db v l).map (fun r => r.duration)).sum / ((rowsAt db v l).length : ℚ))

/-- SQL `SELECT AVG(60.0 * estimate / (target_level - end_level)) FROM charge
WHERE end_level < target_level AND vehicle_uuid = v AND location_uuid = l`
(second fallback); `none` is SQL NULL. -/
def avgEstimate (db : DB) (v l : Nat) : Option ℚ :=
  if ((db.charges.filter (fun a =>
      decide (a.end_level < a.target_level) && a.vehicle_uuid == v && a.location_uuid == l)).map
      (fun a => 60 * a.estimate / ((a.target_level : ℚ) - (a.end_level : ℚ)))).length = 0 then
    none
  else
    some ((((db.charges.filter (fun a =>
      decide (a.end_level < a.target_level) && a.vehicle_uuid == v && a.location_uuid == l)).map
      (fun a => 60 * a.estimate / ((a.target_level : ℚ) - (a.end_level : ℚ)))).sum)
      / (((db.charges.filter (fun a =>
      decide (a.end_level < a.target_level) && a.vehicle_uuid == v && a.location_uuid == l)).length : ℚ)))

/-- Second half of the JavaScript chain `avg2 || 20 * 60`: a null or `0`
average falls through to the 1200-second default. -/
def seedTail (b : Option ℚ) : ℚ :=
  match b with
  | some y => if y = 0 then 1200 else y
  | none => 1200

/-- The JavaScript fallback chain `avg1 || avg2 || 20 * 60` from
`getChargeCurve`: `||` skips both `null` and `0`. -/
def seedChain (a b : Option ℚ) : ℚ :=
  match a with
  | some x => if x = 0 then seedTail b else x
  | none => seedTail b

/-- The seed used by `getChargeCurve` when the per-level median set is
empty. -/
def fallbackSeed (db : DB) (v l : Nat) : ℚ :=
  seedChain (avgDuration db v l) (avgEstimate db v l)

/-- The inner `while (dbCurve.length > 0 && level >= dbCurve[0].level)` loop:
pop entries whose level is at most `L`, adopting each popped median as the
new current value. -/
def popWhile : Int → ℚ → List (Int × ℚ) → ℚ × List (Int × ℚ)
  | _, c, [] => (c, [])
  | L, c, e :: rest => if e.1 ≤ L then popWhile L e.2 rest else (c, e :: rest)

/-- The `for (let level = 0; level <= 100; ++level)` loop of `getChargeCurve`,
assigning `curve[level] = current` after the pop-while step. -/
def curveLoop : ℚ → List (Int × ℚ) → List Nat → List (Nat × ℚ)
  | _, _, [] => []
  | c, p, L :: ls =>
    (L, (popWhile (L : Int) c p).1) ::
      curveLoop (popWhile (L : Int) c p).1 (popWhile (L : Int) c p).2 ls

/-- Step-function reference for the walk: `adopt c entries L` is the value of
the last entry whose level is at most `L`, and the seed `c` when no entry
qualifies.  For an ascending entry list this is exactly the right-continuous
step function described by the spec. -/
def adopt : ℚ → List (Int × ℚ) → Int → ℚ
  | c, [], _ => c
  | c, e :: rest, L => if e.1 ≤ L then adopt e.2 rest L else adopt c rest L

/-- Curve construction from the query result and the fallback seed: a
non-empty result set is seeded with its first (lowest-level) median, which is
removed from the pending queue. -/
def curveFrom : List (Int × ℚ) → ℚ → List (Nat × ℚ)
  | e :: rest, _ => curveLoop e.2 rest (List.range 101)
  | [], s => curveLoop s [] (List.range 101)

/-- `DBInterface.getChargeCurve`: the full 0..100 charge curve as an
association list in level order. -/
def getChargeCurve (db : DB) (v l : Nat) : List (Nat × ℚ) :=
  curveFrom (dbCurveQuery db v l) (fallbackSeed db v l)

/-- The upsert key `(vehicle_uuid, level, charge_id)` of the `charge_curve`
table. -/
def sameKey (r : ChargeCurveRow) (v : Nat) (level : Int) (cid : Nat) : Bool :=
  r.vehicle_uuid == v && r.level == level && r.charge_id == cid

/-- The insert candidate row of `setChargeCurve`: omitted optional fields get
the column default, SQL NULL (`none`). -/
def mkRow (v cid : Nat) (level : Int) (d : ℚ) (t eu ea : Option ℚ) : ChargeCurveRow :=
  { vehicle_uuid := v, charge_id := cid, level := level, duration := d,
    outside_deci_temperature := t, energy_used := eu, energy_added := ea }

/-- The `DO UPDATE SET` clause: the conflicting row's four data fields are
set from `EXCLUDED`, i.e. from the insert candidate. -/
def overwriteRow (r : ChargeCurveRow) (d : ℚ) (t eu ea : Option ℚ) : ChargeCurveRow :=
  { r with
    duration := d
    outside_deci_temperature := t
    energy_used := eu
    energy_added := ea }

/-- `DBInterface.setChargeCurve`: `INSERT ... ON CONFLICT(vehicle_uuid, level,
charge_id) DO UPDATE SET outside_deci_temperature = EXCLUDED..., duration =
EXCLUDED..., energy_used = EXCLUDED..., energy_added = EXCLUDED...`.  Omitted
optional arguments are absent from the insert column list, so `EXCLUDED`
holds the column default NULL for them. -/
def setChargeCurve (db : DB) (v cid : Nat) (level : Int) (d : ℚ)
    (t eu ea : Option ℚ) : DB :=
  if db.charge_curve.any (fun r => sameKey r v level cid) then
    { db with charge_curve := (db.charge_curve.map
        (fun r => if sameKey r v level cid then overwriteRow r d t eu ea else r)) }
  else
    { db with charge_curve := db.charge_curve ++ [mkRow v cid level d t eu ea] }

/-- Error taxonomy of the write path. -/
inductive WriteError where
  | InvalidSample
deriving DecidableEq

/-- Modelled from the spec: the store-level constraint `level ∈ [0,100]`,
`duration ≥ 0` of §4.1/§7 (`InvalidSample`, rejected before any write, never
clamped).  The constraint layer lives in the database schema
(`DB_SETUP_TSQL` of `db-schema.ts`), which is not among the sources here;
`setChargeCurve` itself performs no validation and is embedded above
unchanged. -/
def recordSample (db : DB) (v cid : Nat) (level : Int) (d : ℚ)
    (t eu ea : Option ℚ) : Except WriteError DB :=
  if level < 0 ∨ 100 < level ∨ d < 0 then Except.error WriteError.InvalidSample
  else Except.ok (setChargeCurve db v cid level d t eu ea)

/-- Maximum of a list of levels; `none` is SQL NULL (`MAX` over an empty row
set). -/
def maxLevel : List Int → Option Int
  | [] => none
  | x :: xs =>
    match maxLevel xs with
    | none => some x
    | some m => some (max x m)

/-- `DBInterface.chargeCalibration`: `SELECT MAX(level) FROM charge a JOIN
charge_curve b ON (a.charge_id = b.charge_id) WHERE a.vehicle_uuid = v AND
a.location_uuid = (SELECT location_uuid FROM charge c WHERE c.charge_id =
cid)`.  A missing session makes the subquery NULL, so the outer query
matches nothing and `MAX` is NULL. -/
def chargeCalibration (db : DB) (v cid : Nat) : Option Int :=
  match db.charges.find? (fun a => a.charge_id == cid) with
  | none => none
  | some c => maxLevel ((chargeJoin db v c.location_uuid).map (fun p => p.2.level))

/-- Literal reading of the spec's seed rule "two ordered fallbacks, evaluated
in order, first non-null wins", for comparison with `seedChain` (which is the
source's `||` chain). -/
def seedFirstNonNull (a b : Option ℚ) : ℚ :=
  (Option.orElse a (fun _ => b)).getD 1200

/-- Concrete store for the step-function scenario: medians 100 s at level 10
and 300 s at level 50. -/
def dbStep : DB :=
  { charges := [⟨1, 1, 1, 80, 50, 30⟩],
    charge_curve :=
      [⟨1, 1, 10, 100, none, none, none⟩, ⟨1, 1, 50, 300, none, none, none⟩] }

/-- Concrete store with no samples and one short-of-target session whose
estimate is 0 minutes: the session-derived average is exactly 0. -/
def dbZero : DB :=
  { charges := [⟨1, 1, 1, 80, 50, 0⟩], charge_curve := [] }

/-- Completely empty store. -/
def dbEmpty : DB := { charges := [], charge_curve := [] }

/-- Concrete store with three samples at level 20 with durations
10, 20 and 1000 (three distinct sessions at one location). -/
def dbMedian : DB :=
  { charges := [⟨1, 1, 1, 80, 50, 30⟩, ⟨2, 1, 1, 80, 50, 30⟩, ⟨3, 1, 1, 80, 50, 30⟩],
    charge_curve :=
      [⟨1, 1, 20, 10, none, none, none⟩, ⟨1, 2, 20, 20, none, none, none⟩,
       ⟨1, 3, 20, 1000, none, none, none⟩] }

/-- Concrete store for the upsert-overwrite scenario: one stored sample with
a recorded temperature. -/
def dbConflict : DB :=
  { charges := [⟨1, 1, 1, 80, 50, 30⟩],
    charge_curve := [⟨1, 1, 20, 10, some 5, none, none⟩] }

/-- Concrete store for the calibration scenario: session 1 at location 7 with
a level-40 sample, session 2 of the same vehicle at location 9 with a
level-90 sample. -/
def dbCal : DB :=
  { charges := [⟨1, 1, 7, 80, 50, 30⟩, ⟨2, 1, 9, 80, 50, 30⟩],
    charge_curve :=
      [⟨1, 1, 40, 60, none, none, none⟩, ⟨1, 2, 90, 60, none, none, none⟩] }

theorem mem_insertLevel {x z : Int} {ys : List Int} :
    z ∈ insertLevel x ys ↔ z = x ∨ z ∈ ys := by
  induction ys with
  | nil => simp [insertLevel]
  | cons y ys ih =>
    show z ∈ (if x < y then x :: y :: ys else
      if x = y then y :: ys else y :: insertLevel x ys) ↔ _
    by_cases h1 : x < y
    · rw [if_pos h1]
      simp only [List.mem_cons]
    · rw [if_neg h1]
      by_cases h2 : x = y
      · rw [if_pos h2]
        subst h2
        simp only [List.mem_cons]
        tauto
      · rw [if_neg h2]
        simp only [List.mem_cons, ih]
        tauto

theorem pairwise_insertLevel {x : Int} {ys : List Int}
    (h : ys.Pairwise (· < ·)) : (insertLevel x ys).Pairwise (· < ·) := by
  induction ys with
  | nil => simp [insertLevel]
  | cons y ys ih =>
    rcases List.pairwise_cons.mp h with ⟨hy, hys⟩
    by_cases h1 : x < y
    · simp only [insertLevel, if_pos h1]
      refine List.pairwise_cons.mpr ⟨?_, h⟩
      intro z hz
      rcases List.mem_cons.mp hz with rfl | hz
      · exact h1
      · exact lt_trans h1 (hy z hz)
    · by_cases h2 : x = y
      · simpa [insertLevel, h1, h2] using h
      · simp only [insertLevel, if_neg h1, if_neg h2]
        refine List.pairwise_cons.mpr ⟨?_, ih hys⟩
        intro z hz
        rcases mem_insertLevel.mp hz with rfl | hz
        · omega
        · exact hy z hz

theorem sortedLevels_pairwise (xs : List Int) :
    (sortedLevels xs).Pairwise (· < ·) := by
  induction xs with
  | nil => simp [sortedLevels]
  | cons x xs ih => exact pairwise_insertLevel ih

theorem mem_sortedLevels {xs : List Int} {z : Int} :
    z ∈ sortedLevels xs ↔ z ∈ xs := by
  induction xs with
  | nil => simp [sortedLevels]
  | cons x xs ih =>
    show z ∈ insertLevel x (sortedLevels xs) ↔ _
    rw [mem_insertLevel, ih]
    simp

theorem insertLevel_ne_nil (x : Int) (ys : List Int) : insertLevel x ys ≠ [] := by
  cases ys with
  | nil => simp [insertLevel]
  | cons y ys =>
    simp only [insertLevel]
    split
    · simp
    · split <;> simp

theorem sortedLevels_eq_nil {xs : List Int} : sortedLevels xs = [] ↔ xs = [] := by
  cases xs with
  | nil => simp [sortedLevels]
  | cons x xs =>
    simp only [sortedLevels, List.foldr_cons]
    constructor
    · intro h
      exact absurd h (insertLevel_ne_nil x _)
    · intro h
      cases h

theorem dbCurveQuery_pairwise (db : DB) (v l : Nat) :
    (dbCurveQuery db v l).Pairwise (fun a b => a.1 < b.1) := by
  unfold dbCurveQuery
  exact List.pairwise_map.mpr (by simpa using sortedLevels_pairwise _)

theorem rowsAt_eq_nil {db : DB} {v l : Nat} (h : dbCurveQuery db v l = []) :
    rowsAt db v l = [] := by
  unfold dbCurveQuery at h
  rw [List.map_eq_nil_iff] at h
  exact List.map_eq_nil_iff.mp (sortedLevels_eq_nil.mp h)

theorem adopt_of_forall_gt {c : ℚ} {p : List (Int × ℚ)} {L : Int}
    (h : ∀ e ∈ p, L < e.1) : adopt c p L = c := by
  induction p generalizing c with
  | nil => rfl
  | cons e rest ih =>
    have h1 : ¬ e.1 ≤ L := not_le.mpr (h e (List.mem_cons_self e rest))
    show (if e.1 ≤ L then adopt e.2 rest L else adopt c rest L) = c
    rw [if_neg h1]
    exact ih (fun x hx => h x (List.mem_cons_of_mem _ hx))

theorem popWhile_fst {L : Int} {c : ℚ} {p : List (Int × ℚ)}
    (hp : p.Pairwise (fun a b => a.1 ≤ b.1)) :
    (popWhile L c p).1 = adopt c p L := by
  induction p generalizing c with
  | nil => rfl
  | cons e rest ih =>
    rcases List.pairwise_cons.mp hp with ⟨he, hrest⟩
    by_cases h1 : e.1 ≤ L
    · show (if e.1 ≤ L then popWhile L e.2 rest else (c, e :: rest)).1 =
        if e.1 ≤ L then adopt e.2 rest L else adopt c rest L
      rw [if_pos h1, if_pos h1]
      exact ih hrest
    · show (if e.1 ≤ L then popWhile L e.2 rest else (c, e :: rest)).1 =
        if e.1 ≤ L then adopt e.2 rest L else adopt c rest L
      rw [if_neg h1, if_neg h1]
      exact (adopt_of_forall_gt
        (fun x hx => lt_of_lt_of_le (not_le.mp h1) (he x hx))).symm

theorem popWhile_snd_pairwise {L : Int} {c : ℚ} {p : List (Int × ℚ)}
    (hp : p.Pairwise (fun a b => a.1 ≤ b.1)) :
    (popWhile L c p).2.Pairwise (fun a b => a.1 ≤ b.1) := by
  induction p generalizing c with
  | nil => exact List.Pairwise.nil
  | cons e rest ih =>
    rcases List.pairwise_cons.mp hp with ⟨_, hrest⟩
    by_cases h1 : e.1 ≤ L
    · show (if e.1 ≤ L then popWhile L e.2 rest else (c, e :: rest)).2.Pairwise _
      rw [if_pos h1]
      exact ih hrest
    · show (if e.1 ≤ L then popWhile L e.2 rest else (c, e :: rest)).2.Pairwise _
      rw [if_neg h1]
      exact hp

theorem adopt_popWhile {Lp L : Int} (hLL : Lp ≤ L) {c : ℚ} {p : List (Int × ℚ)}
    (hp : p.Pairwise (fun a b => a.1 ≤ b.1)) :
    adopt (popWhile Lp c p).1 (popWhile Lp c p).2 L = adopt c p L := by
  induction p generalizing c with
  | nil => rfl
  | cons e rest ih =>
    rcases List.pairwise_cons.mp hp with ⟨_, hrest⟩
    by_cases h1 : e.1 ≤ Lp
    · have h2 : e.1 ≤ L := le_trans h1 hLL
      have hpop : popWhile Lp c (e :: rest) = popWhile Lp e.2 rest := by
        show (if e.1 ≤ Lp then popWhile Lp e.2 rest else (c, e :: rest)) = _
        rw [if_pos h1]
      rw [hpop, ih hrest]
      show adopt e.2 rest L = (if e.1 ≤ L then adopt e.2 rest L else adopt c rest L)
      rw [if_pos h2]
    · have hpop : popWhile Lp c (e :: rest) = (c, e :: rest) := by
        show (if e.1 ≤ Lp then popWhile Lp e.2 rest else (c, e :: rest)) = _
        rw [if_neg h1]
      rw [hpop]

theorem lookup_curveLoop {ls : List Nat} {c : ℚ} {p : List (Int × ℚ)} {L : Nat}
    (hp : p.Pairwise (fun a b => a.1 ≤ b.1)) (hls : ls.Pairwise (· < ·))
    (hL : L ∈ ls) :
    List.lookup L (curveLoop c p ls) = some (adopt c p (L : Int)) := by
  induction ls generalizing c p with
  | nil => cases hL
  | cons Lh ls ih =>
    rcases List.pairwise_cons.mp hls with ⟨hLh, hls2⟩
    rcases List.mem_cons.mp hL with rfl | hmem
    · show List.lookup L ((L, (popWhile (L : Int) c p).1) ::
        curveLoop (popWhile (L : Int) c p).1 (popWhile (L : Int) c p).2 ls) = _
      rw [List.lookup_cons_self]
      rw [popWhile_fst hp]
    · have hlt : Lh < L := hLh L hmem
      have hne : (L == Lh) = false := beq_eq_false_iff_ne.mpr (Nat.ne_of_gt hlt)
      show List.lookup L ((Lh, (popWhile (Lh : Int) c p).1) ::
        curveLoop (popWhile (Lh : Int) c p).1 (popWhile (Lh : Int) c p).2 ls) = _
      rw [List.lookup_cons]
      rw [hne]
      rw [ih (popWhile_snd_pairwise hp) hls2 hmem]
      rw [adopt_popWhile (by exact_mod_cast Nat.le_of_lt hlt) hp]

theorem curveLoop_map_fst (c : ℚ) (p : List (Int × ℚ)) (ls : List Nat) :
    (curveLoop c p ls).map Prod.fst = ls := by
  induction ls generalizing c p with
  | nil => rfl
  | cons Lh ls ih =>
    show List.map Prod.fst ((Lh, (popWhile (Lh : Int) c p).1) ::
      curveLoop (popWhile (Lh : Int) c p).1 (popWhile (Lh : Int) c p).2 ls) = _
    rw [List.map_cons, ih]

theorem avgDuration_eq_none {db : DB} {v l : Nat} (h : dbCurveQuery db v l = []) :
    avgDuration db v l = none := by
  unfold avgDuration
  rw [rowsAt_eq_nil h]
  simp

/-- C3: for every store state and vehicle/location pair, `getChargeCurve`
succeeds and returns a curve whose domain is exactly the 101 integer levels
0..100 in ascending order, each mapped to a duration, with no gaps; the
embedding is total, so the source's non-null assertion on the seed can never
fire — there is no data-absence error. -/
theorem C3_getChargeCurve_total (db : DB) (v l : Nat) :
    (getChargeCurve db v l).map Prod.fst = List.range 101 ∧
    (getChargeCurve db v l).length = 101 := by
  have h : (getChargeCurve db v l).map Prod.fst = List.range 101 := by
    unfold getChargeCurve
    cases hq : dbCurveQuery db v l with
    | nil => exact curveLoop_map_fst _ _ _
    | cons e rest => exact curveLoop_map_fst _ _ _
  refine ⟨h, ?_⟩
  have h2 := congrArg List.length h
  simpa using h2

/-- C1: with a non-empty per-level median set, `getChargeCurve` seeds the
running value with the median of the lowest measured level, and walking levels
0..100 adopts a measured median exactly when its level is ≤ the current level,
producing the right-continuous step function `adopt`; in particular, for
medians {10 ↦ 100 s, 50 ↦ 300 s}, curve[0..9] = 100, curve[10..49] = 100 and
curve[50..100] = 300. -/
theorem C1_step_function :
    (∀ (db : DB) (v l : Nat) (e : Int × ℚ) (rest : List (Int × ℚ)),
      dbCurveQuery db v l = e :: rest → ∀ L : Nat, L < 101 →
        List.lookup L (getChargeCurve db v l) = some (adopt e.2 (e :: rest) (L : Int))) ∧
    (∀ L : Nat, L < 101 →
      (L ≤ 9 → List.lookup L (getChargeCurve dbStep 1 1) = some 100) ∧
      (10 ≤ L → L ≤ 49 → List.lookup L (getChargeCurve dbStep 1 1) = some 100) ∧
      (50 ≤ L → L ≤ 100 → List.lookup L (getChargeCurve dbStep 1 1) = some 300)) := by
  have main : ∀ (db : DB) (v l : Nat) (e : Int × ℚ) (rest : List (Int × ℚ)),
      dbCurveQuery db v l = e :: rest → ∀ L : Nat, L < 101 →
        List.lookup L (getChargeCurve db v l) = some (adopt e.2 (e :: rest) (L : Int)) := by
    intro db v l e rest hq L hL
    have hpair : (e :: rest).Pairwise (fun a b => a.1 < b.1) := by
      rw [← hq]
      exact dbCurveQuery_pairwise db v l
    have hrest : rest.Pairwise (fun a b => a.1 ≤ b.1) :=
      ((List.pairwise_cons.mp hpair).2).imp (fun h => le_of_lt h)
    unfold getChargeCurve
    rw [hq]
    show List.lookup L (curveLoop e.2 rest (List.range 101)) = _
    rw [lookup_curveLoop hrest (List.pairwise_lt_range 101) (List.mem_range.mpr hL)]
    have hsame : adopt e.2 (e :: rest) (L : Int) = adopt e.2 rest (L : Int) := by
      show (if e.1 ≤ (L : Int) then adopt e.2 rest (L : Int)
        else adopt e.2 rest (L : Int)) = _
      rw [ite_self]
    rw [hsame]
  have hval : ∀ L : Nat,
      adopt 100 [((10 : Int), (100 : ℚ)), ((50 : Int), (300 : ℚ))] (L : Int)
        = if (50 : Int) ≤ (L : Int) then 300 else 100 := by
    intro L
    show (if (10 : Int) ≤ (L : Int)
        then adopt 100 [((50 : Int), (300 : ℚ))] (L : Int)
        else adopt 100 [((50 : Int), (300 : ℚ))] (L : Int)) = _
    rw [ite_self]
    show (if (50 : Int) ≤ (L : Int) then adopt 300 [] (L : Int)
      else adopt 100 [] (L : Int)) = _
    rfl
  refine ⟨main, ?_⟩
  intro L hL
  have h := main dbStep 1 1 ((10 : Int), (100 : ℚ)) [((50 : Int), (300 : ℚ))]
    (by decide) L hL
  rw [h, hval]
  refine ⟨?_, ?_, ?_⟩
  · intro h9
    rw [if_neg (by omega)]
  · intro h10 h49
    rw [if_neg (by omega)]
  · intro h50 h100
    rw [if_pos (by omega)]

/-- Witness for C1: at the two-median store, the curve at level 60 is 300 s. -/
theorem C1_step_function_witness :
    List.lookup 60 (getChargeCurve dbStep 1 1) = some 300 :=
  (C1_step_function.2 60 (by decide)).2.2 (by decide) (by decide)

/-- C2 (amended): with zero per-level median samples, `getChargeCurve` seeds
the curve from two ordered fallbacks where the first non-null AND non-zero
value wins — the JavaScript `||` chain also skips a computed 0 — then the
fixed 1200-second default; the curve is constant at that seed, so with a
non-zero session-derived average it is constant at that average, and with
zero history of any kind it is constant 1200. -/
theorem C2_fallback_chain :
    ∀ (db : DB) (v l : Nat), dbCurveQuery db v l = [] →
      (∀ L : Nat, L < 101 →
        List.lookup L (getChargeCurve db v l) = some (fallbackSeed db v l)) ∧
      (avgEstimate db v l = none → fallbackSeed db v l = 1200) ∧
      (∀ q : ℚ, avgEstimate db v l = some q → q ≠ 0 → fallbackSeed db v l = q) := by
  intro db v l hq
  have havg : avgDuration db v l = none := avgDuration_eq_none hq
  refine ⟨?_, ?_, ?_⟩
  · intro L hL
    unfold getChargeCurve
    rw [hq]
    show List.lookup L (curveLoop (fallbackSeed db v l) [] (List.range 101)) = _
    rw [lookup_curveLoop List.Pairwise.nil (List.pairwise_lt_range 101)
      (List.mem_range.mpr hL)]
    rfl
  · intro he
    unfold fallbackSeed
    rw [havg, he]
    rfl
  · intro q he hq0
    unfold fallbackSeed
    rw [havg, he]
    show (if q = 0 then (1200 : ℚ) else q) = q
    rw [if_neg hq0]

/-- Witness for C2 (amended) at the empty store. -/
theorem C2_fallback_chain_witness :
    List.lookup 0 (getChargeCurve dbEmpty 1 1) = some (fallbackSeed dbEmpty 1 1) :=
  (C2_fallback_chain dbEmpty 1 1 (by decide)).1 0 (by decide)

/-- C2 counterexample: at a store with no samples and one short-of-target
session with estimate 0 minutes, the first NON-NULL fallback value is 0
(the session-derived average), yet the produced curve is constant 1200 —
the code's `||` chain does not adopt the first non-null value. -/
theorem C2_firstNonNull_refuted :
    seedFirstNonNull (avgDuration dbZero 1 1) (avgEstimate dbZero 1 1) = 0 ∧
    List.lookup 0 (getChargeCurve dbZero 1 1) = some 1200 ∧
    (0 : ℚ) ≠ 1200 := by
  have ha : avgDuration dbZero 1 1 = none := by decide
  have he : avgEstimate dbZero 1 1 = some 0 := by simp [avgEstimate, dbZero]
  have hq : dbCurveQuery dbZero 1 1 = [] := by decide
  refine ⟨?_, ?_, by decide⟩
  · rw [seedFirstNonNull, ha, he]
    rfl
  · have hseed : fallbackSeed dbZero 1 1 = 1200 := by
      unfold fallbackSeed
      rw [ha, he]
      show (if (0 : ℚ) = 0 then (1200 : ℚ) else 0) = 1200
      rw [if_pos rfl]
    unfold getChargeCurve
    rw [hq]
    show List.lookup 0 (curveLoop (fallbackSeed dbZero 1 1) [] (List.range 101)) = _
    rw [hseed, lookup_curveLoop List.Pairwise.nil (List.pairwise_lt_range 101)
      (by decide)]
    rfl

/-- C10: the fallback chain treats a tier whose computed average is exactly 0
like an absent (NULL) tier — `seedChain` and `seedTail` on `some 0` equal
their value on `none` — and end-to-end, a pair with no per-level data whose
session-derived average is exactly 0 falls through to the constant
1200-second default curve. -/
theorem C10_zero_average_skipped :
    (∀ b : Option ℚ, seedChain (some 0) b = seedChain none b) ∧
    seedTail (some 0) = seedTail none ∧
    (∀ (db : DB) (v l : Nat), dbCurveQuery db v l = [] →
      avgEstimate db v l = some 0 → ∀ L : Nat, L < 101 →
        List.lookup L (getChargeCurve db v l) = some 1200) := by
  refine ⟨?_, ?_, ?_⟩
  · intro b
    show (if (0 : ℚ) = 0 then seedTail b else 0) = seedTail b
    rw [if_pos rfl]
  · show (if (0 : ℚ) = 0 then (1200 : ℚ) else 0) = 1200
    rw [if_pos rfl]
  · intro db v l hq he L hL
    have ha : avgDuration db v l = none := avgDuration_eq_none hq
    have hseed : fallbackSeed db v l = 1200 := by
      unfold fallbackSeed
      rw [ha, he]
      show (if (0 : ℚ) = 0 then (1200 : ℚ) else 0) = 1200
      rw [if_pos rfl]
    unfold getChargeCurve
    rw [hq]
    show List.lookup L (curveLoop (fallbackSeed db v l) [] (List.range 101)) = _
    rw [hseed, lookup_curveLoop List.Pairwise.nil (List.pairwise_lt_range 101)
      (List.mem_range.mpr hL)]
    rfl

/-- Witness for C10 at the zero-estimate store. -/
theorem C10_zero_average_skipped_witness :
    List.lookup 5 (getChargeCurve dbZero 1 1) = some 1200 :=
  C10_zero_average_skipped.2.2 dbZero 1 1 (by decide)
    (by simp [avgEstimate, dbZero]) 5 (by decide)

/-- C8: the per-level duration entering the curve walk is the continuous
50th-percentile median of all joined samples at that level; in particular
durations {10, 20, 1000} at one level yield 20, unaffected by the outlier,
and the resulting curve for such a store is 20 everywhere from that level
on. -/
theorem C8_median_per_level :
    (∀ (db : DB) (v l : Nat) (lv : Int), durationsAt db v l lv ≠ [] →
      (lv, percentileCont05 (durationsAt db v l lv)) ∈ dbCurveQuery db v l) ∧
    percentileCont05 [10, 20, 1000] = 20 ∧
    dbCurveQuery dbMedian 1 1 = [(20, 20)] ∧
    List.lookup 20 (getChargeCurve dbMedian 1 1) = some 20 ∧
    List.lookup 100 (getChargeCurve dbMedian 1 1) = some 20 := by
  refine ⟨?_, by decide, by decide, by decide, by decide⟩
  intro db v l lv hne
  unfold dbCurveQuery
  refine List.mem_map.mpr ⟨lv, ?_, rfl⟩
  rw [mem_sortedLevels]
  unfold durationsAt at hne
  have hfil : (rowsAt db v l).filter (fun r => r.level == lv) ≠ [] := by
    intro h0
    rw [h0] at hne
    exact hne rfl
  rcases List.exists_mem_of_ne_nil _ hfil with ⟨r, hr⟩
  rcases List.mem_filter.mp hr with ⟨hrmem, hlevel⟩
  exact List.mem_map.mpr ⟨r, hrmem, by simpa using hlevel⟩

/-- Witness for C8 at the three-sample store. -/
theorem C8_median_per_level_witness :
    ((20 : Int), percentileCont05 (durationsAt dbMedian 1 1 20))
      ∈ dbCurveQuery dbMedian 1 1 :=
  C8_median_per_level.1 dbMedian 1 1 20 (by decide)

theorem maxLevel_eq_none {xs : List Int} : maxLevel xs = none ↔ xs = [] := by
  cases xs with
  | nil => simp [maxLevel]
  | cons x xs => cases h : maxLevel xs <;> simp [maxLevel, h]

theorem maxLevel_spec {xs : List Int} {m : Int} (h : maxLevel xs = some m) :
    m ∈ xs ∧ ∀ x ∈ xs, x ≤ m := by
  induction xs generalizing m with
  | nil => cases h
  | cons x xs ih =>
    cases h2 : maxLevel xs with
    | none =>
      have hx : x = m := by
        have e1 : maxLevel (x :: xs) = some x := by
          show (match maxLevel xs with
            | none => some x | some m => some (max x m)) = some x
          rw [h2]
        rw [e1] at h
        exact Option.some.inj h
      have hnil : xs = [] := maxLevel_eq_none.mp h2
      subst hnil
      subst hx
      simp
    | some k =>
      have hm : max x k = m := by
        have e1 : maxLevel (x :: xs) = some (max x k) := by
          show (match maxLevel xs with
            | none => some x | some m => some (max x m)) = some (max x k)
          rw [h2]
        rw [e1] at h
        exact Option.some.inj h
      rcases ih h2 with ⟨hk, hbound⟩
      constructor
      · rcases max_choice x k with hc | hc
        · rw [← hm, hc]
          exact List.mem_cons_self x xs
        · rw [← hm, hc]
          exact List.mem_cons_of_mem _ hk
      · intro y hy
        rcases List.mem_cons.mp hy with rfl | hy2
        · rw [← hm]
          exact le_max_left _ _
        · exact le_trans (hbound y hy2) (hm ▸ le_max_right x k)

/-- C6: `chargeCalibration` returns the maximum sample level over the join of
the vehicle's sessions at the location of the session named by `charge_id`
(NULL when that join is empty); every joined sample comes from a session of
that vehicle at exactly that location, so samples at other locations are
never counted, and no fallback is involved. -/
theorem C6_chargeCalibration :
    ∀ (db : DB) (v cid : Nat) (c : Charge),
      db.charges.find? (fun a => a.charge_id == cid) = some c →
      (chargeCalibration db v cid = none ↔ chargeJoin db v c.location_uuid = []) ∧
      (∀ m : Int, chargeCalibration db v cid = some m →
        (∃ p ∈ chargeJoin db v c.location_uuid, p.2.level = m) ∧
        (∀ p ∈ chargeJoin db v c.location_uuid, p.2.level ≤ m)) ∧
      (∀ p ∈ chargeJoin db v c.location_uuid,
        p.1.vehicle_uuid = v ∧ p.1.location_uuid = c.location_uuid) := by
  intro db v cid c hfind
  have hcal : chargeCalibration db v cid
      = maxLevel ((chargeJoin db v c.location_uuid).map (fun p => p.2.level)) := by
    unfold chargeCalibration
    rw [hfind]
  refine ⟨?_, ?_, ?_⟩
  · rw [hcal, maxLevel_eq_none, List.map_eq_nil_iff]
  · intro m hm
    rw [hcal] at hm
    rcases maxLevel_spec hm with ⟨hmem, hbound⟩
    constructor
    · rcases List.mem_map.mp hmem with ⟨p, hp, hpe⟩
      exact ⟨p, hp, hpe⟩
    · intro p hp
      exact hbound _ (List.mem_map.mpr ⟨p, hp, rfl⟩)
  · intro p hp
    rcases List.mem_flatMap.mp hp with ⟨a, ha, hpa⟩
    have hcond := (List.mem_filter.mp ha).2
    rcases List.mem_map.mp hpa with ⟨b, _, hba⟩
    rw [← hba]
    simp only [Bool.and_eq_true, beq_iff_eq] at hcond
    exact ⟨hcond.1, hcond.2⟩

/-- Witness for C6 at the two-location store. -/
theorem C6_chargeCalibration_witness :
    (chargeCalibration dbCal 1 1 = none ↔ chargeJoin dbCal 1 7 = []) :=
  (C6_chargeCalibration dbCal 1 1 ⟨1, 1, 7, 80, 50, 30⟩ (by decide)).1

theorem sameKey_iff {r : ChargeCurveRow} {v : Nat} {level : Int} {cid : Nat} :
    sameKey r v level cid = true ↔
      r.vehicle_uuid = v ∧ r.level = level ∧ r.charge_id = cid := by
  simp [sameKey, Bool.and_eq_true, beq_iff_eq, and_assoc]

theorem sameKey_mkRow (v cid : Nat) (level : Int) (d : ℚ) (t eu ea : Option ℚ) :
    sameKey (mkRow v cid level d t eu ea) v level cid = true := by
  simp [sameKey, mkRow]

theorem sameKey_overwriteRow (r : ChargeCurveRow) (d : ℚ) (t eu ea : Option ℚ)
    (v : Nat) (level : Int) (cid : Nat) :
    sameKey (overwriteRow r d t eu ea) v level cid = sameKey r v level cid := rfl

theorem overwriteRow_eq_mkRow {r : ChargeCurveRow} {v : Nat} {level : Int}
    {cid : Nat} (h : sameKey r v level cid = true) (d : ℚ) (t eu ea : Option ℚ) :
    overwriteRow r d t eu ea = mkRow v cid level d t eu ea := by
  rcases sameKey_iff.mp h with ⟨h1, h2, h3⟩
  cases r
  simp_all [overwriteRow, mkRow]

theorem setChargeCurve_mem_key {db : DB} {v cid : Nat} {level : Int} {d : ℚ}
    {t eu ea : Option ℚ} {r : ChargeCurveRow}
    (hr : r ∈ (setChargeCurve db v cid level d t eu ea).charge_curve)
    (hk : sameKey r v level cid = true) :
    r = mkRow v cid level d t eu ea := by
  unfold setChargeCurve at hr
  by_cases hany : db.charge_curve.any (fun r => sameKey r v level cid)
  · rw [if_pos hany] at hr
    rcases List.mem_map.mp hr with ⟨r0, hr0, hre⟩
    by_cases h0 : sameKey r0 v level cid = true
    · rw [if_pos h0] at hre
      rw [← hre]
      exact overwriteRow_eq_mkRow h0 d t eu ea
    · rw [if_neg h0] at hre
      rw [← hre] at hk
      exact absurd hk h0
  · rw [if_neg hany] at hr
    rcases List.mem_append.mp hr with hmem | hmem
    · exact absurd (List.any_eq_true.mpr ⟨r, hmem, hk⟩) hany
    · exact List.mem_singleton.mp hmem

theorem filter_key_map (l : List ChargeCurveRow) (v cid : Nat) (level : Int)
    (d : ℚ) (t eu ea : Option ℚ) :
    (l.map (fun r => if sameKey r v level cid then overwriteRow r d t eu ea
        else r)).filter (fun r => sameKey r v level cid)
      = (l.filter (fun r => sameKey r v level cid)).map
          (fun _ => mkRow v cid level d t eu ea) := by
  induction l with
  | nil => rfl
  | cons r l ih =>
    rw [List.map_cons, List.filter_cons, List.filter_cons]
    by_cases h : sameKey r v level cid = true
    · rw [if_pos h]
      rw [if_pos (by rw [sameKey_overwriteRow]; exact h), if_pos h]
      rw [List.map_cons, ih, overwriteRow_eq_mkRow h]
    · rw [if_neg h]
      rw [if_neg h, if_neg h]
      exact ih

theorem filter_not_key_map (l : List ChargeCurveRow) (v cid : Nat) (level : Int)
    (d : ℚ) (t eu ea : Option ℚ) :
    (l.map (fun r => if sameKey r v level cid then overwriteRow r d t eu ea
        else r)).filter (fun r => !(sameKey r v level cid))
      = l.filter (fun r => !(sameKey r v level cid)) := by
  induction l with
  | nil => rfl
  | cons r l ih =>
    rw [List.map_cons, List.filter_cons, List.filter_cons]
    by_cases h : sameKey r v level cid = true
    · rw [if_pos h]
      have hfalse : (!(sameKey (overwriteRow r d t eu ea) v level cid)) = false := by
        rw [sameKey_overwriteRow, h]
        rfl
      have hfalse2 : (!(sameKey r v level cid)) = false := by
        rw [h]
        rfl
      rw [if_neg (by rw [hfalse]; exact Bool.false_ne_true),
        if_neg (by rw [hfalse2]; exact Bool.false_ne_true)]
      exact ih
    · have htrue : sameKey r v level cid = false := Bool.eq_false_iff.mpr h
      rw [if_neg h]
      have htrue2 : (!(sameKey r v level cid)) = true := by
        rw [htrue]
        rfl
      rw [if_pos htrue2, if_pos htrue2, ih]

/-- C9: the upsert modifies at most the rows carrying exactly the supplied
key `(vehicle_uuid, level, charge_id)`: all rows with any other key, and the
session table, are left unchanged. -/
theorem C9_upsert_frame :
    ∀ (db : DB) (v cid : Nat) (level : Int) (d : ℚ) (t eu ea : Option ℚ),
      (setChargeCurve db v cid level d t eu ea).charge_curve.filter
          (fun r => !(sameKey r v level cid))
        = db.charge_curve.filter (fun r => !(sameKey r v level cid)) ∧
      (setChargeCurve db v cid level d t eu ea).charges = db.charges := by
  intro db v cid level d t eu ea
  unfold setChargeCurve
  by_cases hany : db.charge_curve.any (fun r => sameKey r v level cid)
  · rw [if_pos hany]
    exact ⟨filter_not_key_map db.charge_curve v cid level d t eu ea, rfl⟩
  · rw [if_neg hany]
    constructor
    · rw [List.filter_append]
      have hmk : ([mkRow v cid level d t eu ea].filter
          (fun r => !(sameKey r v level cid))) = [] := by
        simp [sameKey_mkRow]
      rw [hmk, List.append_nil]
    · rfl

/-- C5 (amended): on conflict with an existing row for the key, the supplied
duration and optional fields overwrite the stored values, and every optional
field omitted from the call is overwritten with NULL (the insert default) —
omission behaves as set-to-null, NOT as no-change: after the upsert, any row
with the key is exactly the insert candidate. -/
theorem C5_conflict_overwrites :
    ∀ (db : DB) (v cid : Nat) (level : Int) (d : ℚ) (t eu ea : Option ℚ)
      (r : ChargeCurveRow),
      r ∈ (setChargeCurve db v cid level d t eu ea).charge_curve →
      sameKey r v level cid = true →
      r = mkRow v cid level d t eu ea :=
  fun _ _ _ _ _ _ _ _ _ hr hk => setChargeCurve_mem_key hr hk

/-- Witness for C5 (amended) at the one-row store. -/
theorem C5_conflict_overwrites_witness :
    overwriteRow ⟨1, 1, 20, 10, some 5, none, none⟩ 20 none none none
      = mkRow 1 1 20 20 none none none :=
  C5_conflict_overwrites dbConflict 1 1 20 20 none none none
    (overwriteRow ⟨1, 1, 20, 10, some 5, none, none⟩ 20 none none none)
    (by decide) (by decide)

/-- C5 counterexample: the store holds a row with temperature `some 5`; a
conflicting upsert that supplies a new duration but OMITS the temperature
leaves the stored temperature NULL, not `some 5` — omission does not mean
"no change". -/
theorem C5_omitted_field_refuted :
    dbConflict.charge_curve.map (fun r => r.outside_deci_temperature)
      = [some 5] ∧
    (setChargeCurve dbConflict 1 1 20 20 none none none).charge_curve.map
        (fun r => r.outside_deci_temperature) = [none] := by
  exact ⟨by decide, by decide⟩

theorem setChargeCurve_filter_key {db : DB} {v cid : Nat} {level : Int}
    (d : ℚ) (t eu ea : Option ℚ)
    (hlen : (db.charge_curve.filter (fun r => sameKey r v level cid)).length ≤ 1) :
    (setChargeCurve db v cid level d t eu ea).charge_curve.filter
        (fun r => sameKey r v level cid) = [mkRow v cid level d t eu ea] := by
  unfold setChargeCurve
  by_cases hany : db.charge_curve.any (fun r => sameKey r v level cid)
  · rw [if_pos hany]
    rw [filter_key_map]
    rcases List.any_eq_true.mp hany with ⟨x, hx, hpx⟩
    have hne : db.charge_curve.filter (fun r => sameKey r v level cid) ≠ [] := by
      intro h0
      exact (List.filter_eq_nil_iff.mp h0 x hx) hpx
    have hpos : 0 < (db.charge_curve.filter (fun r => sameKey r v level cid)).length :=
      List.length_pos.mpr hne
    have hlen1 : (db.charge_curve.filter (fun r => sameKey r v level cid)).length = 1 := by
      omega
    rcases List.length_eq_one.mp hlen1 with ⟨a, ha⟩
    rw [ha]
    rfl
  · rw [if_neg hany]
    rw [List.filter_append]
    have h1 : db.charge_curve.filter (fun r => sameKey r v level cid) = [] := by
      rw [List.filter_eq_nil_iff]
      intro a ha hpa
      exact hany (List.any_eq_true.mpr ⟨a, ha, hpa⟩)
    rw [h1]
    simp [sameKey_mkRow]

/-- C7: starting from a store satisfying the key-uniqueness invariant, two
successive upserts for the same `(vehicle_uuid, charge_id, level)` key leave
exactly one row for that key, holding the duration and optional fields of the
latest call — overwrite, not accumulation. -/
theorem C7_repeat_write_overwrites :
    ∀ (db : DB) (v cid : Nat) (level : Int) (d1 : ℚ) (t1 e1 a1 : Option ℚ)
      (d2 : ℚ) (t2 e2 a2 : Option ℚ),
      (db.charge_curve.filter (fun r => sameKey r v level cid)).length ≤ 1 →
      (setChargeCurve (setChargeCurve db v cid level d1 t1 e1 a1)
          v cid level d2 t2 e2 a2).charge_curve.filter
          (fun r => sameKey r v level cid)
        = [mkRow v cid level d2 t2 e2 a2] := by
  intro db v cid level d1 t1 e1 a1 d2 t2 e2 a2 hlen
  have h1 := setChargeCurve_filter_key d1 t1 e1 a1 hlen
  have hlen1 : ((setChargeCurve db v cid level d1 t1 e1 a1).charge_curve.filter
      (fun r => sameKey r v level cid)).length ≤ 1 := by
    rw [h1]
    simp
  exact setChargeCurve_filter_key d2 t2 e2 a2 hlen1

/-- Witness for C7: two writes for key (1, 20, 1) on the empty store leave one
row with the later duration 30. -/
theorem C7_repeat_write_overwrites_witness :
    (setChargeCurve (setChargeCurve dbEmpty 1 1 20 10 none none none)
        1 1 20 30 none none none).charge_curve.filter
        (fun r => sameKey r 1 20 1)
      = [mkRow 1 1 20 30 none none none] :=
  C7_repeat_write_overwrites dbEmpty 1 1 20 10 none none none 30 none none none
    (by decide)

/-- C4: a sample write with a level outside [0,100] or a negative duration is
rejected with `InvalidSample` before any write — the result is the error, not
a store, so no clamping and no change to the sample store occurs. -/
theorem C4_invalid_sample_rejected :
    ∀ (db : DB) (v cid : Nat) (level : Int) (d : ℚ) (t eu ea : Option ℚ),
      (level < 0 ∨ 100 < level ∨ d < 0) →
      recordSample db v cid level d t eu ea
        = Except.error WriteError.InvalidSample := by
  intro db v cid level d t eu ea h
  unfold recordSample
  rw [if_pos h]

/-- Witness for C4: level 150 is rejected. -/
theorem C4_invalid_sample_rejected_witness :
    recordSample dbEmpty 1 1 150 10 none none none
      = Except.error WriteError.InvalidSample :=
  C4_invalid_sample_rejected dbEmpty 1 1 150 10 none none none (by decide)

end SmartCharge
